import Mathlib

/-!
Shallow embedding of the DeviceSimulator simulation engine and its sample
distribution pipeline (backend/services), with theorems checking the
natural-language specification against the code.

Numeric values (Python floats) are modelled as rationals; randomness is
modelled by passing the drawn values explicitly as arguments; Python
dictionaries holding optional keys become structures of `Option` fields.
-/

namespace DeviceSim

/-- A runtime value, as produced by the generators and carried in a
sample's value map (`None` is `Val.null`). -/
inductive Val where
  | num (q : ℚ)
  | bool (b : Bool)
  | str (s : String)
  | null
  deriving DecidableEq, Repr

/-- Python truthiness of a value (`bool(v)`), used by `if simple_eval(...)`. -/
def Val.truthy : Val → Bool
  | .num q => q != 0
  | .bool b => b
  | .str s => s ≠ ""
  | .null => false

/-- `models/device.py`: `ParameterType` enum (NUMBER / BOOLEAN / STRING). -/
inductive ParameterType where
  | NUMBER
  | BOOLEAN
  | STRING
  deriving DecidableEq, Repr

/-- `models/device.py`: `GenerationMode` enum. -/
inductive GenerationMode where
  | RANDOM
  | LINEAR
  | PERIODIC
  | RANDOM_WALK
  | CUSTOM
  deriving DecidableEq, Repr

/-- `error_config` dict keys read by `ErrorInjector.apply`
(simulation_engine.py); absent keys are `none`. -/
structure ErrorConfig where
  mcar_probability : Option ℚ := none
  drift_rate : Option ℚ := none
  drift_reset_interval : Option ℚ := none
  anomaly_probability : Option ℚ := none
  anomaly_multiplier : Option ℚ := none
  noise_std_dev : Option ℚ := none
  deriving DecidableEq, Repr

/-- `models/device.py`: the static part of a `Parameter` that the
generation strategies and sinks read (numeric bounds and default, the
per-parameter `error_config` dict, the optional `is_tag` key carried by
dict-shaped parameters). -/
structure Parameter where
  id : String
  type : ParameterType
  min_value : Option ℚ := none
  max_value : Option ℚ := none
  default_value : Option ℚ := none
  generation_mode : GenerationMode := .RANDOM
  error_config : ErrorConfig := {}
  is_tag : Bool := false
  deriving DecidableEq, Repr

/-- Python `a or b` on an optional number: `None` and `0` are falsy and
fall through to `b` (used by `parameter.default_value or parameter.min_value or 0`). -/
def pyOrQ (a : Option ℚ) (b : ℚ) : ℚ :=
  match a with
  | some q => if q = 0 then b else q
  | none => b

/-! ## Generation strategies (`services/data_generator.py`)

The `generation_params` dict is per-strategy state; its optional keys
become `Option` fields.  Random draws (`random.uniform`, `random.gauss`,
`random.random`) are passed in as explicit arguments. -/

/-- State dict used by `_generate_random_walk` plus the noise/anomaly keys
read by `_apply_noise` / `_apply_anomaly`. -/
structure WalkParams where
  current_value : Option ℚ := none
  step_range : Option ℚ := none
  noise_sigma : Option ℚ := none
  anomaly_rate : Option ℚ := none
  anomaly_type : Option String := none
  anomaly_multiplier : Option ℚ := none
  deriving DecidableEq, Repr

namespace DataGenerator

/-- `DataGenerator._generate_random_walk` (lines 35-64): seed
`current_value` from `default_value or min_value or 0`, add the uniform
draw `change`, clamp to `min_value` from below then `max_value` from
above, store and return the new value. -/
def generate_random_walk (p : Parameter) (st : WalkParams) (change : ℚ) :
    ℚ × WalkParams :=
  let cur := match st.current_value with
    | some c => c
    | none => pyOrQ p.default_value (pyOrQ p.min_value 0)
  let nv := cur + change
  let nv := match p.min_value with
    | some mn => max mn nv
    | none => nv
  let nv := match p.max_value with
    | some mx => min mx nv
    | none => nv
  (nv, { st with current_value := some nv })

/-- `DataGenerator._apply_noise` (lines 66-72): add the Gaussian draw
when `noise_sigma > 0`. -/
def apply_noise (value : ℚ) (st : WalkParams) (gaussDraw : ℚ) : ℚ :=
  let sigma := st.noise_sigma.getD 0
  if sigma > 0 then value + gaussDraw else value

/-- `DataGenerator._apply_anomaly` (lines 74-93): with probability
`anomaly_rate` (uniform draw `u`), distort the value according to
`anomaly_type` (spike / drop / null / min / max). -/
def apply_anomaly (value : ℚ) (st : WalkParams) (p : Parameter) (u : ℚ) : Val :=
  let rate := st.anomaly_rate.getD 0
  if rate > 0 ∧ u < rate then
    match st.anomaly_type.getD "spike" with
    | "spike" => .num (value * st.anomaly_multiplier.getD (3/2))
    | "drop" => .num 0
    | "null" => .null
    | "min" => .num (p.min_value.getD 0)
    | "max" => match p.max_value with
      | some mx => .num mx
      | none => .num (value * 2)
    | _ => .num value
  else .num value

/-- `DataGenerator.generate_data` (lines 8-33) specialised to a NUMBER
parameter in RANDOM_WALK mode: run the strategy, then (numeric values
only) apply noise and anomaly post-processing. -/
def generate_data_walk (p : Parameter) (st : WalkParams)
    (change gaussDraw u : ℚ) : Val × WalkParams :=
  let r := generate_random_walk p st change
  if p.type = ParameterType.NUMBER then
    (apply_anomaly (apply_noise r.1 r.2 gaussDraw) r.2 p u, r.2)
  else (.num r.1, r.2)

/-- Iterate `generate_data_walk` over a list of per-tick random draws,
returning every emitted value (one tick of the writer loop per list
element). -/
def generate_data_walk_seq (p : Parameter) :
    WalkParams → List (ℚ × ℚ × ℚ) → List Val
  | _, [] => []
  | st, d :: rest =>
    let r := generate_data_walk p st d.1 d.2.1 d.2.2
    r.1 :: generate_data_walk_seq p r.2 rest

/-- State dict used by `_generate_linear`. -/
structure LinParams where
  current_value : Option ℚ := none
  step : Option ℚ := none
  deriving DecidableEq, Repr

/-- `DataGenerator._generate_linear` (lines 114-139): advance
`current_value` by `step` (default 1); when both bounds are set and the
advanced value crosses either bound, store the negated step and recompute
the advance from it.  The recomputed value is NOT re-checked against the
bounds. -/
def generate_linear (p : Parameter) (st : LinParams) : ℚ × LinParams :=
  let cur := match st.current_value with
    | some c => c
    | none => pyOrQ p.default_value (pyOrQ p.min_value 0)
  let step := st.step.getD 1
  let nv := cur + step
  match p.min_value, p.max_value with
  | some mn, some mx =>
    if nv > mx ∨ nv < mn then
      let nv2 := cur + -step
      (nv2, { current_value := some nv2, step := some (-step) })
    else (nv, { current_value := some nv, step := st.step })
  | _, _ => (nv, { current_value := some nv, step := st.step })

end DataGenerator

/-! ## Error injector (`services/simulation_engine.py`, `ErrorInjector`) -/

/-- Per-parameter mutable error context (`context` dict). -/
structure ErrorContext where
  drift_accumulated : Option ℚ := none
  drift_start_time : Option ℚ := none
  deriving DecidableEq, Repr

/-- The random draws and the wall-clock instant consumed by one
`ErrorInjector.apply` call. -/
structure ErrorDraws where
  mcarU : ℚ
  anomalyU : ℚ
  gaussDraw : ℚ
  now : ℚ
  deriving DecidableEq, Repr

/-- Python `isinstance(value, (int, float))` view of a value: booleans
are `int` instances in Python, so they enter the numeric branches as 0/1. -/
def Val.asPyNumber : Val → Option ℚ
  | .num q => some q
  | .bool b => some (if b then 1 else 0)
  | _ => none

namespace ErrorInjector

/-- `ErrorInjector.apply` (simulation_engine.py lines 91-135): early
return on `None`; MCAR; then, for numeric values, drift accumulation
(with optional wall-clock reset window), anomaly spike, and Gaussian
noise.  Returns the new value and the updated context. -/
def apply (value : Val) (error_config : ErrorConfig) (context : ErrorContext)
    (d : ErrorDraws) : Val × ErrorContext :=
  match value with
  | .null => (.null, context)
  | v =>
    match error_config.mcar_probability with
    | some p =>
      if d.mcarU < p then (.null, context) else applyNumeric v error_config context d
    | none => applyNumeric v error_config context d
where
  /-- The numeric-only stages (drift, anomaly, noise); non-numeric values
  pass through with the context untouched. -/
  applyNumeric (v : Val) (error_config : ErrorConfig) (context : ErrorContext)
      (d : ErrorDraws) : Val × ErrorContext :=
    match v.asPyNumber with
    | none => (v, context)
    | some q =>
      -- Drift
      let (q, context) := match error_config.drift_rate with
        | none => (q, context)
        | some rate =>
          let acc := context.drift_accumulated.getD 0 + rate
          let (acc, context) := match error_config.drift_reset_interval with
            | none => (acc, { context with drift_accumulated := some acc })
            | some interval =>
              let start := context.drift_start_time.getD d.now
              if d.now - start > interval then
                (0, { drift_accumulated := some 0, drift_start_time := some d.now })
              else
                (acc, { drift_accumulated := some acc, drift_start_time := some start })
          (q + acc, context)
      -- Anomaly (spike)
      let q := match error_config.anomaly_probability with
        | some p =>
          if d.anomalyU < p then q * error_config.anomaly_multiplier.getD (3/2) else q
        | none => q
      -- Noise (Gaussian)
      let q := match error_config.noise_std_dev with
        | some sd => if sd > 0 then q + d.gaussDraw else q
        | none => q
      (.num q, context)

end ErrorInjector

/-! ## Physics engine (`services/simulation_engine.py`, `PhysicsEngine`) -/

/-- Physics state dict (`{'position': .., 'velocity': ..}`). -/
structure PhysState where
  position : ℚ := 0
  velocity : ℚ := 0
  deriving DecidableEq, Repr

/-- `physics_config` keys read by `PhysicsEngine.update_state`
(`max_velocity` defaults to `float('inf')`, modelled as `none` = no clamp). -/
structure PhysicsConfig where
  acceleration : ℚ := 0
  max_velocity : Option ℚ := none
  target_position : Option ℚ := none
  deriving DecidableEq, Repr

namespace PhysicsEngine

/-- `PhysicsEngine.update_state` (lines 142-171): accelerate toward
`target_position` if configured, clamp velocity to `±max_velocity`,
advance position by `velocity·dt`. -/
def update_state (state : PhysState) (physics_config : PhysicsConfig)
    (dt : ℚ) : PhysState :=
  let pos := state.position
  let vel := state.velocity
  let acc := physics_config.acceleration
  let vel := match physics_config.target_position with
    | some target =>
      if pos < target then vel + acc * dt
      else if pos > target then vel - acc * dt
      else vel
    | none => vel
  let vel := match physics_config.max_velocity with
    | some maxVel => max (-maxVel) (min maxVel vel)
    | none => vel
  { position := pos + vel * dt, velocity := vel }

end PhysicsEngine

/-! ## Logic (rule) engine (`services/simulation_engine.py`, `LogicEngine`)

`LogicEngine.evaluate` feeds free-form `condition` / right-hand-side
strings to `simpleeval.simple_eval` over a namespace of current values.
The embedding deep-embeds the expression fragment those strings use
(literals, names, arithmetic, comparisons, boolean operators); a failed
evaluation (unknown name, type error) is `none`, matching the exception
that the engine catches and turns into a skipped rule. -/

/-- The evaluation namespace / update map: insertion-ordered key-value
pairs, like a Python dict. -/
abbrev Ctx := List (String × Val)

/-- Dict lookup (first matching key). -/
def Ctx.find : Ctx → String → Option Val
  | [], _ => none
  | (k, v) :: rest, key => if k = key then some v else Ctx.find rest key

/-- Dict assignment: overwrite the first binding in place, else append
(Python dicts keep the original insertion position on overwrite). -/
def Ctx.set : Ctx → String → Val → Ctx
  | [], key, v => [(key, v)]
  | (k, w) :: rest, key, v =>
    if k = key then (k, v) :: rest else (k, w) :: Ctx.set rest key v

/-- Expressions appearing in rule `condition` strings and in the
right-hand side of `action` strings. -/
inductive Expr where
  | lit (v : Val)
  | var (name : String)
  | add (a b : Expr)
  | sub (a b : Expr)
  | mul (a b : Expr)
  | lt (a b : Expr)
  | le (a b : Expr)
  | gt (a b : Expr)
  | ge (a b : Expr)
  | eqE (a b : Expr)
  | neE (a b : Expr)
  | andE (a b : Expr)
  | orE (a b : Expr)
  | notE (a : Expr)
  deriving DecidableEq, Repr

/-- Evaluate an expression against a namespace; `none` models the
exception `simple_eval` raises on an undefined name or ill-typed
operation. -/
def evalExpr (ns : Ctx) : Expr → Option Val
  | .lit v => some v
  | .var name => Ctx.find ns name
  | .add a b =>
    match evalExpr ns a, evalExpr ns b with
    | some (.num x), some (.num y) => some (.num (x + y))
    | _, _ => none
  | .sub a b =>
    match evalExpr ns a, evalExpr ns b with
    | some (.num x), some (.num y) => some (.num (x - y))
    | _, _ => none
  | .mul a b =>
    match evalExpr ns a, evalExpr ns b with
    | some (.num x), some (.num y) => some (.num (x * y))
    | _, _ => none
  | .lt a b =>
    match evalExpr ns a, evalExpr ns b with
    | some (.num x), some (.num y) => some (.bool (decide (x < y)))
    | _, _ => none
  | .le a b =>
    match evalExpr ns a, evalExpr ns b with
    | some (.num x), some (.num y) => some (.bool (decide (x ≤ y)))
    | _, _ => none
  | .gt a b =>
    match evalExpr ns a, evalExpr ns b with
    | some (.num x), some (.num y) => some (.bool (decide (x > y)))
    | _, _ => none
  | .ge a b =>
    match evalExpr ns a, evalExpr ns b with
    | some (.num x), some (.num y) => some (.bool (decide (x ≥ y)))
    | _, _ => none
  | .eqE a b =>
    match evalExpr ns a, evalExpr ns b with
    | some x, some y => some (.bool (decide (x = y)))
    | _, _ => none
  | .neE a b =>
    match evalExpr ns a, evalExpr ns b with
    | some x, some y => some (.bool (decide ¬(x = y)))
    | _, _ => none
  | .andE a b =>
    match evalExpr ns a with
    | some va => if va.truthy then evalExpr ns b else some va
    | none => none
  | .orE a b =>
    match evalExpr ns a with
    | some va => if va.truthy then some va else evalExpr ns b
    | none => none
  | .notE a =>
    match evalExpr ns a with
    | some va => some (.bool !va.truthy)
    | none => none

/-- The result of splitting an `action` string on its first `=`:
`assign key rhs` when an `=` is present, `noAssign` when not (the engine
then records nothing for the rule). -/
inductive RuleAction where
  | assign (key : String) (rhs : Expr)
  | noAssign
  deriving DecidableEq, Repr

/-- A logic rule dict; `none` models a missing or empty
`condition`/`action` entry (falsy in `if not condition or not action`). -/
structure LogicRule where
  condition : Option Expr := none
  action : Option RuleAction := none
  deriving DecidableEq, Repr

namespace LogicEngine

/-- The rule loop of `LogicEngine.evaluate` (lines 192-214), carrying the
working namespace `safe` and the `updates` dict.  A satisfied rule's
assignment is written to both before the next rule runs; any evaluation
failure skips just that rule. -/
def evaluate_go : Ctx → Ctx → List LogicRule → Ctx
  | _, updates, [] => updates
  | safe, updates, r :: rs =>
    match r.condition, r.action with
    | some c, some a =>
      (match evalExpr safe c with
      | some cv =>
        if cv.truthy then
          match a with
          | .assign k rhs =>
            (match evalExpr safe rhs with
            | some v => evaluate_go (Ctx.set safe k v) (Ctx.set updates k v) rs
            | none => evaluate_go safe updates rs)
          | .noAssign => evaluate_go safe updates rs
        else evaluate_go safe updates rs
      | none => evaluate_go safe updates rs)
    | _, _ => evaluate_go safe updates rs

/-- `LogicEngine.evaluate` (lines 180-216): the initial namespace is a
copy of the context (the `math`/`max`/`min`/`abs` helpers it also holds
are callables our expression fragment never names) and the returned dict
is `updates`. -/
def evaluate (context : Ctx) (rules : List LogicRule) : Ctx :=
  evaluate_go context [] rules

end LogicEngine

/-! ## Time-series sink schema sync (`services/tdengine_service.py`) -/

namespace TDengineService

/-- `TDengineService._get_tdengine_type` (lines 243-252). -/
def get_tdengine_type : ParameterType → String
  | .NUMBER => "DOUBLE"
  | .BOOLEAN => "BOOL"
  | .STRING => "NCHAR(255)"

/-- The SQL statements `create_super_table` can issue, structured.  The
`dropColumn` / `modifyColumn` forms exist in the statement language (they
are what additive-only evolution must never produce) but the code builds
only `ADD` strings. -/
inductive SqlStmt where
  | createStable (columns : List (String × String)) (tagCols : List (String × String))
  | addColumn (field : String) (colType : String)
  | addTag (field : String) (colType : String)
  | dropColumn (field : String)
  | modifyColumn (field : String) (colType : String)
  deriving DecidableEq, Repr

/-- Is the statement an additive `ALTER` (`ADD COLUMN` / `ADD TAG`)? -/
def SqlStmt.isAdditiveAlter : SqlStmt → Bool
  | .addColumn _ _ => true
  | .addTag _ _ => true
  | _ => false

/-- The field names a described schema exposes (`DESCRIBE` output rows:
every existing column and tag, including `ts`, `device_name`,
`device_model`). -/
abbrev DescribedSchema := List String

/-- The `for param in parameters` loop of the exists-branch of
`create_super_table` (lines 453-471): one `ALTER STABLE .. ADD TAG/COLUMN`
per parameter whose id is missing from the described schema, in
parameter order. -/
def alterStmtsFor (existing_cols : DescribedSchema) :
    List Parameter → List SqlStmt
  | [] => []
  | p :: ps =>
    if p.id ∈ existing_cols then alterStmtsFor existing_cols ps
    else
      (if p.is_tag then SqlStmt.addTag p.id (get_tdengine_type p.type)
       else SqlStmt.addColumn p.id (get_tdengine_type p.type))
        :: alterStmtsFor existing_cols ps

/-- The create-branch of `create_super_table` (lines 407-439): a single
`CREATE STABLE` with one column per non-tag parameter after `ts`, the two
standard tags, and one tag per `is_tag` parameter (ids `device_name` /
`device_model` are skipped). -/
def createStmtFor (parameters : List Parameter) : SqlStmt :=
  let kept := parameters.filter
    (fun p => p.id ≠ "device_name" ∧ p.id ≠ "device_model")
  .createStable
    (("ts", "TIMESTAMP") ::
      (kept.filter (fun p => !p.is_tag)).map
        (fun p => (p.id, get_tdengine_type p.type)))
    ([("device_name", "NCHAR(64)"), ("device_model", "NCHAR(64)")] ++
      (kept.filter (fun p => p.is_tag)).map
        (fun p => (p.id, get_tdengine_type p.type)))

/-- `TDengineService.create_super_table` (lines 401-476), as the list of
schema statements it executes: `existing = none` models `SHOW STABLES
LIKE` returning no row (create a fresh super table); `existing = some s`
models an existing table whose `DESCRIBE` lists the fields `s`. -/
def create_super_table (existing : Option DescribedSchema)
    (parameters : List Parameter) : List SqlStmt :=
  match existing with
  | none => [createStmtFor parameters]
  | some s => alterStmtsFor s parameters

/-- Effect of executing one schema statement on the described schema:
an `ADD COLUMN`/`ADD TAG` makes the field describable afterwards. -/
def applySqlStmt (s : DescribedSchema) : SqlStmt → DescribedSchema
  | .addColumn f _ => s ++ [f]
  | .addTag f _ => s ++ [f]
  | .dropColumn f => s.filter (· ≠ f)
  | .modifyColumn _ _ => s
  | .createStable cols tagCols => cols.map (·.1) ++ tagCols.map (·.1)

/-- Executing a statement list in order. -/
def applySqlStmts (s : DescribedSchema) (stmts : List SqlStmt) : DescribedSchema :=
  stmts.foldl applySqlStmt s

end TDengineService

/-! ## Fieldbus register sink (`services/protocols/modbus_service.py`) -/

namespace ModbusService

/-- The `device_mappings` dict (`device_id -> register_offset`),
insertion-ordered. -/
abbrev DeviceMappings := List (String × Nat)

/-- Dict lookup for `device_mappings`. -/
def findOffset : DeviceMappings → String → Option Nat
  | [], _ => none
  | (k, off) :: rest, d => if k = d then some off else findOffset rest d

/-- The allocation step of `ModbusService.update` (lines 107-111): a
device id not yet mapped is given the block offset
`100 + len(device_mappings) * 100`. -/
def allocate (m : DeviceMappings) (device_id : String) : DeviceMappings :=
  match findOffset m device_id with
  | some _ => m
  | none => m ++ [(device_id, 100 + m.length * 100)]

/-- The mappings after a sequence of `update` calls (first-encounter
order), starting from an empty dict. -/
def allocateAll (ids : List String) : DeviceMappings :=
  ids.foldl allocate []

/-- Python `int(q)` on a float: truncation toward zero. -/
def truncQ (q : ℚ) : ℤ := if 0 ≤ q then ⌊q⌋ else ⌈q⌉

/-- The register-value loop of `ModbusService.update` (lines 124-136):
one entry per parameter, in definition order.  A numeric value (Python
`isinstance(val, (int, float))`, which booleans satisfy) becomes
`int(val) & 0xFFFF`; any other value — strings included — contributes a
`0` register. -/
def registerValues (parameters : List Parameter) (data : Ctx) : List Nat :=
  parameters.map fun p =>
    match Ctx.find data p.id with
    | some (.num q) => ((truncQ q) % 65536).toNat
    | some (.bool b) => if b then 1 else 0
    | _ => 0

/-- `ModbusService.update` for one device (lines 95-140), state-passing:
returns the updated mappings and the holding-register write performed
(start register and values), `none` when `values` is empty. -/
def update (m : DeviceMappings) (device_id : String) (data : Ctx)
    (parameters : List Parameter) : DeviceMappings × Option (Nat × List Nat) :=
  let m := allocate m device_id
  let start := (findOffset m device_id).getD 0
  let values := registerValues parameters data
  (m, if values.isEmpty then none else some (start, values))

end ModbusService

/-! ## Writer loop (`services/data_writer.py`)

`DataWriter.process_devices` and one `_write_data_loop` iteration,
parametrised over the effectful collaborators: each is a function from a
device id to `Except String _` (`.error` models a raised exception). -/

namespace DataWriter

/-- The per-device collaborators invoked inside the `for device in
devices` loop of `process_devices`, plus the tick-level
`tdengine_connected` flag computed before it. -/
structure TickOps where
  /-- `DataGenerator.generate_device_data` for the device. -/
  generate : String → Except String Unit
  /-- result of the `ConfigService.is_tdengine_enabled()` /
  `check_connection()` check at the top of `process_devices`. -/
  tdengine_connected : Bool
  /-- `tdengine_service.insert_data` (plus the tag filtering around it). -/
  td_insert : String → Except String Unit
  /-- `mqtt_service.publish`. -/
  mqtt_publish : String → Except String Unit
  /-- `modbus_service.update`. -/
  modbus_update : String → Except String Unit
  /-- `opcua_service.update`. -/
  opcua_update : String → Except String Unit

/-- The body of the `for device in devices` loop for one device
(lines 92-143).  Only the TDengine write sits in its own
`try/except` (lines 103-134): its failure is logged and the device still
completes; a failure anywhere else propagates out of the loop. -/
def processDevice (ops : TickOps) (d : String) : Except String (List String) := do
  let _ ← ops.generate d
  let tdLog :=
    if ops.tdengine_connected then
      match ops.td_insert d with
      | .ok _ => []
      | .error e => ["Device " ++ d ++ " TDengine write failed: " ++ e]
    else []
  let _ ← ops.mqtt_publish d
  let _ ← ops.modbus_update d
  let _ ← ops.opcua_update d
  return tdLog

/-- `DataWriter.process_devices` (lines 78-146): the whole device loop
runs inside one `try/except`, so the first uncaught per-device failure is
caught at tick level — logged — and ends the tick.  Returns the ids of
the devices that were fully processed and the log entries, in order. -/
def process_devices (ops : TickOps) : List String → List String × List String
  | [] => ([], [])
  | d :: ds =>
    match processDevice ops d with
    | .ok l =>
      let (ps, log) := process_devices ops ds
      (d :: ps, l ++ log)
    | .error e => ([], ["DataWriter process exception: " ++ e])

/-- Loop-control state of `_write_data_loop`: `running` is flipped only
by `stop()`, never by the loop body. -/
structure LoopState where
  running : Bool
  log : List String
  deriving DecidableEq, Repr

/-- One iteration of `_write_data_loop` (lines 49-76) over the cached
device list: the body is wrapped in `try/except`, so whatever
`process_devices` reports, the iteration ends with `running` unchanged. -/
def write_loop_tick (ops : TickOps) (devices : List String)
    (st : LoopState) : LoopState :=
  if st.running then
    let (_, log) := process_devices ops devices
    { running := st.running, log := st.log ++ log }
  else st

end DataWriter

/-! ## Per-tick sample generation with physics and rules

`data_writer.process_devices` (and `api/data.py`) call
`DataGenerator.generate_device_data(device_id, parameters,
physics_config, logic_rules)`; the four-argument generator the
repository ships to those callers is not present under `src/` (the
`data_generator.py` checked in there still has the two-argument
signature), so the orchestration is modelled from the spec. -/

namespace SampleGenerator

/-- Engine-owned per-device state (spec `DeviceState`): physics state and
per-parameter error contexts (the per-parameter generation state is
abstracted into the strategy outcome argument below). -/
structure GenDeviceState where
  physics_state : PhysState := {}
  error_context : List (String × ErrorContext) := []

/-- Lookup in the per-parameter error-context dict. -/
def findErrCtx : List (String × ErrorContext) → String → Option ErrorContext
  | [], _ => none
  | (k, c) :: rest, key => if k = key then some c else findErrCtx rest key

/-- Assignment in the per-parameter error-context dict (overwrite in
place, else append). -/
def setErrCtx : List (String × ErrorContext) → String → ErrorContext →
    List (String × ErrorContext)
  | [], key, c => [(key, c)]
  | (k, w) :: rest, key, c =>
    if k = key then (k, c) :: rest else (k, w) :: setErrCtx rest key c

/-- Modelled from the spec (§4.6 steps 3-4): the working value map built
before rule evaluation — one entry per parameter keyed by its id holding
the strategy outcome, then, if physics is configured, the physics state
advanced by one nominal time step (`dt = 1`) merged in as
`position`/`velocity`. -/
def workingBeforeRules (genValue : Parameter → Val)
    (parameters : List Parameter) (physics_config : Option PhysicsConfig)
    (st : GenDeviceState) : Ctx :=
  let working := parameters.foldl (fun c p => Ctx.set c p.id (genValue p)) []
  match physics_config with
  | some cfg =>
    let ps := PhysicsEngine.update_state st.physics_state cfg 1
    Ctx.set (Ctx.set working "position" (.num ps.position))
      "velocity" (.num ps.velocity)
  | none => working

/-- Modelled from the spec (§4.6): the four-argument
`DataGenerator.generate_device_data` missing from `src/`.  Per device per
tick: run each parameter's strategy (outcome supplied as `genValue`),
merge the advanced physics state, evaluate the logic rules against the
working map and merge their updates back, then pass each parameter's
final value through the error injector using its per-parameter error
context.  Returns the output value map and the updated device state. -/
def generate_device_data (genValue : Parameter → Val)
    (draws : String → ErrorDraws) (parameters : List Parameter)
    (physics_config : Option PhysicsConfig) (logic_rules : List LogicRule)
    (st : GenDeviceState) : Ctx × GenDeviceState :=
  let working := workingBeforeRules genValue parameters physics_config st
  let updates := LogicEngine.evaluate working logic_rules
  let working := updates.foldl (fun c kv => Ctx.set c kv.1 kv.2) working
  let out := parameters.foldl
    (fun (acc : Ctx × List (String × ErrorContext)) p =>
      let v := (Ctx.find working p.id).getD .null
      let pctx := (findErrCtx acc.2 p.id).getD {}
      let r := ErrorInjector.apply v p.error_config pctx (draws p.id)
      (Ctx.set acc.1 p.id r.1, setErrCtx acc.2 p.id r.2))
    ([], st.error_context)
  let physics := match physics_config with
    | some cfg => PhysicsEngine.update_state st.physics_state cfg 1
    | none => st.physics_state
  (out.1, { physics_state := physics, error_context := out.2 })

end SampleGenerator

/-! ## Theorems -/

/-- C9: for every error configuration, error context and random draws,
`ErrorInjector.apply` on a null input returns null and leaves the error
context unchanged — no MCAR draw, drift accumulation, anomaly, or noise
stage touches a null value. -/
theorem errorInjector_null_passthrough (error_config : ErrorConfig)
    (context : ErrorContext) (d : ErrorDraws) :
    ErrorInjector.apply .null error_config context d = (.null, context) := rfl

/-- C10: the LINEAR strategy does not clamp: there is a parameter with
both bounds set (step exceeding `max − min`) for which the generated
value lies strictly outside `[min, max]`. -/
theorem linear_unclamped_exists :
    ∃ (p : Parameter) (st : DataGenerator.LinParams) (mn mx step : ℚ),
      p.min_value = some mn ∧ p.max_value = some mx ∧ st.step = some step ∧
      mx - mn < |step| ∧
      ((DataGenerator.generate_linear p st).1 < mn ∨
        mx < (DataGenerator.generate_linear p st).1) := by
  refine ⟨{ id := "t", type := .NUMBER, min_value := some 0,
            max_value := some 10 },
          { current_value := some 5, step := some 20 },
          0, 10, 20, rfl, rfl, rfl, by norm_num, Or.inl ?_⟩
  norm_num [DataGenerator.generate_linear, pyOrQ]

/-- C6: logic rules are evaluated in declared list order and a satisfied
rule's assignment is written into both the evaluation namespace and the
updates dict before the next rule runs (first conjunct); in particular
the rules `x>0 ⇒ y=1` and `y==1 ⇒ z=2` against `{x: 5}` produce
`{y: 1, z: 2}` — the second rule observes the first rule's write
(second conjunct). -/
theorem logic_rules_ordered_merge
    (safe updates : Ctx) (k : String) (v cv : Val) (c rhs : Expr)
    (rs : List LogicRule)
    (hc : evalExpr safe c = some cv) (ht : cv.truthy = true)
    (hv : evalExpr safe rhs = some v) :
    LogicEngine.evaluate_go safe updates
        ({ condition := some c, action := some (.assign k rhs) } :: rs) =
      LogicEngine.evaluate_go (Ctx.set safe k v) (Ctx.set updates k v) rs ∧
    LogicEngine.evaluate [("x", .num 5)]
        [{ condition := some (.gt (.var "x") (.lit (.num 0))),
           action := some (.assign "y" (.lit (.num 1))) },
         { condition := some (.eqE (.var "y") (.lit (.num 1))),
           action := some (.assign "z" (.lit (.num 2))) }] =
      [("y", .num 1), ("z", .num 2)] := by
  constructor
  · simp [LogicEngine.evaluate_go, hc, ht, hv]
  · decide

/-- Witness for C6: instantiates the merge step at a concrete satisfied
rule and reads off the concrete two-rule evaluation. -/
theorem logic_rules_ordered_merge_witness :
    LogicEngine.evaluate [("x", .num 5)]
        [{ condition := some (.gt (.var "x") (.lit (.num 0))),
           action := some (.assign "y" (.lit (.num 1))) },
         { condition := some (.eqE (.var "y") (.lit (.num 1))),
           action := some (.assign "z" (.lit (.num 2))) }] =
      [("y", .num 1), ("z", .num 2)] :=
  (logic_rules_ordered_merge [("a", .num 1)] [] "b" (.num 2) (.bool true)
    (.lit (.bool true)) (.lit (.num 2)) [] rfl rfl rfl).2

/-- C5: the LINEAR strategy with both bounds set: when the advance by
`step` would cross either bound, the stored step is negated and the
returned value is recomputed as the current value plus the negated step;
consequently from a current value of `max` with positive step the next
returned value is strictly below `max`. -/
theorem linear_bounce (p : Parameter) (st : DataGenerator.LinParams)
    (mn mx cur step : ℚ)
    (hmn : p.min_value = some mn) (hmx : p.max_value = some mx)
    (hcur : st.current_value = some cur) (hstep : st.step = some step) :
    ((cur + step > mx ∨ cur + step < mn) →
      DataGenerator.generate_linear p st =
        (cur + -step,
         { current_value := some (cur + -step), step := some (-step) })) ∧
    (cur = mx → 0 < step → (DataGenerator.generate_linear p st).1 < mx) := by
  constructor
  · intro h
    simp [DataGenerator.generate_linear, hmn, hmx, hcur, hstep, h]
  · intro hcmx h0
    have h : cur + step > mx ∨ cur + step < mn := Or.inl (by rw [hcmx]; linarith)
    simp [DataGenerator.generate_linear, hmn, hmx, hcur, hstep, h]
    linarith [hcmx.ge, hcmx.le]

/-- Witness for C5: a parameter bounded by `[0, 10]` sitting at `10` with
step `3` returns a value strictly below `10` on the next tick. -/
theorem linear_bounce_witness :
    (DataGenerator.generate_linear
      { id := "w", type := .NUMBER, min_value := some 0,
        max_value := some 10 }
      { current_value := some 10, step := some 3 }).1 < 10 :=
  (linear_bounce _ _ 0 10 10 3 rfl rfl rfl rfl).2 rfl (by norm_num)

/-- One random-walk strategy step lands inside both configured bounds
(the clamp `max min_value` then `min max_value`), for any state and any
perturbation draw. -/
theorem generate_random_walk_bounds (p : Parameter)
    (st : WalkParams) (mn mx change : ℚ)
    (hmn : p.min_value = some mn) (hmx : p.max_value = some mx)
    (hle : mn ≤ mx) :
    mn ≤ (DataGenerator.generate_random_walk p st change).1 ∧
      (DataGenerator.generate_random_walk p st change).1 ≤ mx := by
  simp only [DataGenerator.generate_random_walk, hmn, hmx]
  exact ⟨le_min hle (le_max_left _ _), min_le_left _ _⟩

/-- The random-walk step only rewrites `current_value`; the noise and
anomaly keys of the state dict are untouched. -/
theorem generate_data_walk_state (p : Parameter)
    (st : WalkParams) (change gaussDraw u : ℚ) :
    ((DataGenerator.generate_data_walk p st change gaussDraw u).2.noise_sigma
        = st.noise_sigma) ∧
      ((DataGenerator.generate_data_walk p st change gaussDraw u).2.anomaly_rate
        = st.anomaly_rate) := by
  unfold DataGenerator.generate_data_walk
  split <;> exact ⟨rfl, rfl⟩

/-- With the noise and anomaly keys absent, the per-tick value for a
random-walk parameter is exactly the strategy value. -/
theorem generate_data_walk_value (p : Parameter)
    (st : WalkParams) (change gaussDraw u : ℚ)
    (hnoise : st.noise_sigma = none) (hanom : st.anomaly_rate = none) :
    (DataGenerator.generate_data_walk p st change gaussDraw u).1 =
      .num (DataGenerator.generate_random_walk p st change).1 := by
  have hn : (DataGenerator.generate_random_walk p st change).2.noise_sigma
      = none := hnoise
  have ha : (DataGenerator.generate_random_walk p st change).2.anomaly_rate
      = none := hanom
  unfold DataGenerator.generate_data_walk
  split
  · simp [DataGenerator.apply_noise, DataGenerator.apply_anomaly, hn, ha]
  · rfl

/-- C4: for a RANDOM_WALK parameter with both bounds set (`min ≤ max`),
every value the strategy returns lies in `[min, max]` for any state and
draw (first conjunct); and, end-to-end through the per-tick
generate/noise/anomaly pipeline with no noise or anomaly configured, a
sequence of any number of ticks only ever emits numeric values inside
`[min, max]` — never a null and never an exception (the model is a total
function) (second conjunct). -/
theorem random_walk_bounded (p : Parameter) (st : WalkParams)
    (mn mx : ℚ) (ticks : List (ℚ × ℚ × ℚ))
    (hmn : p.min_value = some mn) (hmx : p.max_value = some mx)
    (hle : mn ≤ mx)
    (hnoise : st.noise_sigma = none) (hanom : st.anomaly_rate = none) :
    (∀ (st' : WalkParams) (change : ℚ),
        mn ≤ (DataGenerator.generate_random_walk p st' change).1 ∧
          (DataGenerator.generate_random_walk p st' change).1 ≤ mx) ∧
    (∀ v ∈ DataGenerator.generate_data_walk_seq p st ticks,
        ∃ q : ℚ, v = .num q ∧ mn ≤ q ∧ q ≤ mx) := by
  refine ⟨fun st' change => generate_random_walk_bounds p st' mn mx change hmn hmx hle, ?_⟩
  induction ticks generalizing st with
  | nil => intro v hv; simp [DataGenerator.generate_data_walk_seq] at hv
  | cons d rest ih =>
    intro v hv
    simp only [DataGenerator.generate_data_walk_seq, List.mem_cons] at hv
    rcases hv with hv | hv
    · subst hv
      refine ⟨(DataGenerator.generate_random_walk p st d.1).1,
        generate_data_walk_value p st d.1 d.2.1 d.2.2 hnoise hanom, ?_, ?_⟩
      · exact (generate_random_walk_bounds p st mn mx d.1 hmn hmx hle).1
      · exact (generate_random_walk_bounds p st mn mx d.1 hmn hmx hle).2
    · exact ih _
        (((generate_data_walk_state p st d.1 d.2.1 d.2.2).1).trans hnoise)
        (((generate_data_walk_state p st d.1 d.2.1 d.2.2).2).trans hanom)
        v hv

/-- Witness for C4: a NUMBER parameter bounded by `[0, 100]` in
RANDOM_WALK mode, ticked with draws that overshoot both bounds, stays in
`[0, 100]` at the strategy level and end-to-end. -/
theorem random_walk_bounded_witness :
    (∀ (st' : WalkParams) (change : ℚ),
        0 ≤ (DataGenerator.generate_random_walk
          { id := "t", type := .NUMBER, min_value := some 0,
            max_value := some 100, generation_mode := .RANDOM_WALK }
          st' change).1 ∧
        (DataGenerator.generate_random_walk
          { id := "t", type := .NUMBER, min_value := some 0,
            max_value := some 100, generation_mode := .RANDOM_WALK }
          st' change).1 ≤ 100) ∧
    (∀ v ∈ DataGenerator.generate_data_walk_seq
        { id := "t", type := .NUMBER, min_value := some 0,
          max_value := some 100, generation_mode := .RANDOM_WALK }
        {} [(50, 0, 0), (200, 0, 0), (-500, 0, 0)],
      ∃ q : ℚ, v = .num q ∧ 0 ≤ q ∧ q ≤ 100) :=
  random_walk_bounded
    { id := "t", type := .NUMBER, min_value := some 0,
      max_value := some 100, generation_mode := .RANDOM_WALK }
    {} 0 100 [(50, 0, 0), (200, 0, 0), (-500, 0, 0)]
    rfl rfl (by norm_num) rfl rfl

/-- Zipping a list with its image under `f` pairs each element with its
image. -/
theorem snd_eq_of_mem_zip_map {α β : Type _} (f : α → β) (l : List α) :
    ∀ pv ∈ l.zip (l.map f), pv.2 = f pv.1 := by
  induction l with
  | nil => intro pv h; simp at h
  | cons a rest ih =>
    intro pv h
    simp only [List.map_cons, List.zip_cons_cons, List.mem_cons] at h
    rcases h with h | h
    · subst h; rfl
    · exact ih _ h

/-- Counterexample to C8 as stated: for a device with one NUMBER and one
STRING parameter the sink writes TWO registers — the string parameter is
not skipped, it contributes a `0` register (the `else` branch of the
value loop appends `0`). -/
theorem modbus_string_register_counterexample :
    (ModbusService.update [] "dev"
        [("n", .num 7), ("s", .str "ab")]
        [{ id := "n", type := .NUMBER }, { id := "s", type := .STRING }]).2 =
      some (100, [7, 0]) ∧
    (ModbusService.registerValues
        [{ id := "n", type := .NUMBER }, { id := "s", type := .STRING }]
        [("n", .num 7), ("s", .str "ab")]).length ≠ 1 := by
  constructor
  · rfl
  · decide

/-- C8 amended: on each tick the fieldbus sink writes exactly one holding
register per parameter of the device — numeric values truncated to their
low 16 bits, booleans as 1/0, but string parameters are NOT skipped: they
are written as a `0` placeholder register (as is any missing or null
value). -/
theorem modbus_one_register_per_parameter (m : ModbusService.DeviceMappings)
    (d : String) (data : Ctx) (ps : List Parameter) (hne : ps ≠ []) :
    ∃ start,
      (ModbusService.update m d data ps).2 =
        some (start, ModbusService.registerValues ps data) ∧
      (ModbusService.registerValues ps data).length = ps.length ∧
      (∀ v ∈ ModbusService.registerValues ps data, v < 65536) ∧
      (∀ pv ∈ ps.zip (ModbusService.registerValues ps data),
        (∀ q, Ctx.find data pv.1.id = some (.num q) →
            pv.2 = ((ModbusService.truncQ q) % 65536).toNat) ∧
        (∀ b, Ctx.find data pv.1.id = some (.bool b) →
            pv.2 = if b then 1 else 0) ∧
        (∀ s, Ctx.find data pv.1.id = some (.str s) → pv.2 = 0)) := by
  have hlen : (ModbusService.registerValues ps data).length = ps.length :=
    List.length_map _ _
  have hempty : (ModbusService.registerValues ps data).isEmpty = false := by
    cases ps with
    | nil => exact absurd rfl hne
    | cons a rest => simp [ModbusService.registerValues]
  refine ⟨(ModbusService.findOffset (ModbusService.allocate m d) d).getD 0,
    ?_, hlen, ?_, ?_⟩
  · simp [ModbusService.update, hempty]
  · intro v hv
    rcases List.mem_map.mp hv with ⟨p, _, hp⟩
    subst hp
    cases hfind : Ctx.find data p.id with
    | none => simp [hfind]
    | some w =>
      cases w with
      | num q =>
        simp only [hfind]
        have h1 : 0 ≤ ModbusService.truncQ q % 65536 :=
          Int.emod_nonneg _ (by norm_num)
        have h2 : ModbusService.truncQ q % 65536 < 65536 :=
          Int.emod_lt_of_pos _ (by norm_num)
        omega
      | bool b => cases b <;> simp [hfind]
      | str s => simp [hfind]
      | null => simp [hfind]
  · intro pv hpv
    have h := snd_eq_of_mem_zip_map _ ps pv hpv
    refine ⟨?_, ?_, ?_⟩
    · intro q hq; rw [h, hq]
    · intro b hb; rw [h, hb]
    · intro s hs; rw [h, hs]

/-- Witness for C8 amended: one NUMBER, one BOOLEAN and one STRING
parameter yield exactly three registers. -/
theorem modbus_one_register_per_parameter_witness :
    ∃ start,
      (ModbusService.update [] "w"
          [("n", .num 300000), ("b", .bool true), ("s", .str "x")]
          [{ id := "n", type := .NUMBER }, { id := "b", type := .BOOLEAN },
           { id := "s", type := .STRING }]).2 =
        some (start, ModbusService.registerValues
          [{ id := "n", type := .NUMBER }, { id := "b", type := .BOOLEAN },
           { id := "s", type := .STRING }]
          [("n", .num 300000), ("b", .bool true), ("s", .str "x")]) ∧
      (ModbusService.registerValues
          [{ id := "n", type := .NUMBER }, { id := "b", type := .BOOLEAN },
           { id := "s", type := .STRING }]
          [("n", .num 300000), ("b", .bool true), ("s", .str "x")]).length =
        ([{ id := "n", type := .NUMBER }, { id := "b", type := .BOOLEAN },
          { id := "s", type := .STRING }] : List Parameter).length ∧
      (∀ v ∈ ModbusService.registerValues
          [{ id := "n", type := .NUMBER }, { id := "b", type := .BOOLEAN },
           { id := "s", type := .STRING }]
          [("n", .num 300000), ("b", .bool true), ("s", .str "x")], v < 65536) ∧
      (∀ pv ∈ ([{ id := "n", type := .NUMBER }, { id := "b", type := .BOOLEAN },
           { id := "s", type := .STRING }] : List Parameter).zip
            (ModbusService.registerValues
              [{ id := "n", type := .NUMBER }, { id := "b", type := .BOOLEAN },
               { id := "s", type := .STRING }]
              [("n", .num 300000), ("b", .bool true), ("s", .str "x")]),
        (∀ q, Ctx.find [("n", .num 300000), ("b", .bool true), ("s", .str "x")]
              pv.1.id = some (.num q) →
            pv.2 = ((ModbusService.truncQ q) % 65536).toNat) ∧
        (∀ b, Ctx.find [("n", .num 300000), ("b", .bool true), ("s", .str "x")]
              pv.1.id = some (.bool b) → pv.2 = if b then 1 else 0) ∧
        (∀ s, Ctx.find [("n", .num 300000), ("b", .bool true), ("s", .str "x")]
              pv.1.id = some (.str s) → pv.2 = 0)) :=
  modbus_one_register_per_parameter [] "w"
    [("n", .num 300000), ("b", .bool true), ("s", .str "x")]
    [{ id := "n", type := .NUMBER }, { id := "b", type := .BOOLEAN },
     { id := "s", type := .STRING }] (by decide)

namespace ModbusService

/-- A successful `device_mappings` lookup comes from an entry of the
dict. -/
theorem findOffset_mem {m : DeviceMappings} {d : String} {o : Nat}
    (h : findOffset m d = some o) : (d, o) ∈ m := by
  induction m with
  | nil => simp [findOffset] at h
  | cons e rest ih =>
    obtain ⟨k, off⟩ := e
    by_cases hk : k = d
    · subst hk
      simp [findOffset] at h
      simp [h]
    · simp [findOffset, hk] at h
      exact List.mem_cons_of_mem _ (ih h)

/-- Appending entries does not disturb an existing lookup. -/
theorem findOffset_append_of_some {m : DeviceMappings} {d : String} {o : Nat}
    (l : DeviceMappings) (h : findOffset m d = some o) :
    findOffset (m ++ l) d = some o := by
  induction m with
  | nil => simp [findOffset] at h
  | cons e rest ih =>
    obtain ⟨k, off⟩ := e
    by_cases hk : k = d
    · subst hk; simp_all [findOffset]
    · simp_all [findOffset, hk]

/-- A fresh key is found in the appended entry. -/
theorem findOffset_append_self {m : DeviceMappings} {d : String} (v : Nat)
    (h : findOffset m d = none) : findOffset (m ++ [(d, v)]) d = some v := by
  induction m with
  | nil => simp [findOffset]
  | cons e rest ih =>
    obtain ⟨k, off⟩ := e
    by_cases hk : k = d
    · simp [findOffset, hk] at h
    · simp_all [findOffset, hk]

/-- `allocate` never disturbs an existing lookup. -/
theorem findOffset_allocate_of_some {m : DeviceMappings} {x : String}
    {o : Nat} (y : String) (h : findOffset m x = some o) :
    findOffset (allocate m y) x = some o := by
  unfold allocate
  cases hy : findOffset m y with
  | some _ => exact h
  | none => exact findOffset_append_of_some _ h

/-- After `allocate m x` the key `x` is mapped. -/
theorem findOffset_allocate_self (m : DeviceMappings) (x : String) :
    (findOffset (allocate m x) x).isSome := by
  unfold allocate
  cases hx : findOffset m x with
  | some _ => simp [hx]
  | none => simp [findOffset_append_self _ hx]

/-- Folding further `allocate` calls preserves a mapped key. -/
theorem findOffset_foldl_of_some {x : String} (ids : List String) :
    ∀ (m : DeviceMappings), (findOffset m x).isSome →
      (findOffset (List.foldl allocate m ids) x).isSome := by
  induction ids with
  | nil => intro m h; exact h
  | cons y rest ih =>
    intro m h
    obtain ⟨o, ho⟩ := Option.isSome_iff_exists.mp h
    exact ih _ (by simp [findOffset_allocate_of_some y ho])

/-- Every id that occurred in a sequence of `update` calls is mapped. -/
theorem findOffset_foldl_mem {d : String} (ids : List String) :
    ∀ (m : DeviceMappings), d ∈ ids →
      (findOffset (List.foldl allocate m ids) d).isSome := by
  induction ids with
  | nil => intro m h; simp at h
  | cons y rest ih =>
    intro m h
    rcases List.mem_cons.mp h with hy | hy
    · subst hy
      exact findOffset_foldl_of_some rest _ (findOffset_allocate_self m d)
    · exact ih _ hy

/-- The offsets stored by a fold of `allocate` are exactly
`100 + 100·k` for `k` below the dict size, in insertion order. -/
theorem allocate_foldl_snd (ids : List String) :
    ∀ (m : DeviceMappings),
      m.map Prod.snd =
        (List.range m.length).map (fun k => 100 + 100 * k) →
      (List.foldl allocate m ids).map Prod.snd =
        (List.range (List.foldl allocate m ids).length).map
          (fun k => 100 + 100 * k) := by
  induction ids with
  | nil => intro m h; exact h
  | cons y rest ih =>
    intro m h
    refine ih _ ?_
    unfold allocate
    cases hy : findOffset m y with
    | some _ => exact h
    | none =>
      simp only [List.map_append, List.length_append, List.map_cons,
        List.map_nil, List.length_cons, List.length_nil, h, List.range_succ,
        List.map_append]
      simp [Nat.mul_comm]

end ModbusService

/-- C7: fieldbus register allocation is injective.  For any sequence of
`update` calls: every device id that occurred is mapped to a block offset
of the form `100 + 100·k` (blocks are contiguous from base offset 100),
and two distinct mapped device ids always receive disjoint 100-register
blocks. -/
theorem modbus_blocks_disjoint (ids : List String) (d1 d2 : String)
    (o1 o2 : Nat)
    (h1 : ModbusService.findOffset (ModbusService.allocateAll ids) d1 = some o1)
    (h2 : ModbusService.findOffset (ModbusService.allocateAll ids) d2 = some o2)
    (hne : d1 ≠ d2) :
    (∀ d ∈ ids, ∃ o,
        ModbusService.findOffset (ModbusService.allocateAll ids) d = some o ∧
        ∃ k, o = 100 + 100 * k) ∧
    100 ≤ o1 ∧ 100 ≤ o2 ∧ (o1 + 100 ≤ o2 ∨ o2 + 100 ≤ o1) := by
  have hsnd : (ModbusService.allocateAll ids).map Prod.snd =
      (List.range (ModbusService.allocateAll ids).length).map
        (fun k => 100 + 100 * k) :=
    ModbusService.allocate_foldl_snd ids [] (by simp)
  have hform : ∀ {d : String} {o : Nat},
      ModbusService.findOffset (ModbusService.allocateAll ids) d = some o →
      ∃ k, o = 100 + 100 * k := by
    intro d o h
    have hmem : o ∈ (ModbusService.allocateAll ids).map Prod.snd :=
      List.mem_map_of_mem Prod.snd (ModbusService.findOffset_mem h)
    rw [hsnd] at hmem
    rcases List.mem_map.mp hmem with ⟨k, _, hk⟩
    exact ⟨k, hk.symm⟩
  have hnodup : ((ModbusService.allocateAll ids).map Prod.snd).Nodup := by
    rw [hsnd]
    refine List.Nodup.map (fun a b hab => by omega) (List.nodup_range _)
  have hone : o1 ≠ o2 := by
    intro heq
    apply hne
    have hm1 := ModbusService.findOffset_mem h1
    have hm2 := ModbusService.findOffset_mem h2
    have := List.inj_on_of_nodup_map hnodup hm1 hm2 (by simp [heq])
    exact congrArg Prod.fst this
  obtain ⟨k1, hk1⟩ := hform h1
  obtain ⟨k2, hk2⟩ := hform h2
  refine ⟨?_, by omega, by omega, by omega⟩
  intro d hd
  have hsome : (ModbusService.findOffset
      (ModbusService.allocateAll ids) d).isSome :=
    ModbusService.findOffset_foldl_mem ids [] hd
  obtain ⟨o, ho⟩ := Option.isSome_iff_exists.mp hsome
  exact ⟨o, ho, hform ho⟩

/-- Witness for C7: after updates for devices `a` then `b`, `a` holds
block `[100, 200)` and `b` holds block `[200, 300)` — disjoint. -/
theorem modbus_blocks_disjoint_witness :
    (∀ d ∈ ["a", "b"], ∃ o,
        ModbusService.findOffset (ModbusService.allocateAll ["a", "b"]) d =
          some o ∧ ∃ k, o = 100 + 100 * k) ∧
    100 ≤ 100 ∧ 100 ≤ 200 ∧ (100 + 100 ≤ 200 ∨ 200 + 100 ≤ 100) :=
  modbus_blocks_disjoint ["a", "b"] "a" "b" 100 200 (by decide) (by decide)
    (by decide)

namespace TDengineService

/-- The field names a statement list adds to the schema. -/
def addedFields : List SqlStmt → List String
  | [] => []
  | .addColumn f _ :: rest => f :: addedFields rest
  | .addTag f _ :: rest => f :: addedFields rest
  | .dropColumn _ :: rest => addedFields rest
  | .modifyColumn _ _ :: rest => addedFields rest
  | .createStable _ _ :: rest => addedFields rest

/-- Every statement the exists-branch of `create_super_table` issues is
an additive `ALTER`. -/
theorem alterStmtsFor_additive (ps : List Parameter) (s : DescribedSchema) :
    ∀ stmt ∈ alterStmtsFor s ps, stmt.isAdditiveAlter = true := by
  induction ps with
  | nil => intro stmt h; simp [alterStmtsFor] at h
  | cons p rest ih =>
    intro stmt h
    unfold alterStmtsFor at h
    by_cases hin : p.id ∈ s
    · rw [if_pos hin] at h; exact ih stmt h
    · rw [if_neg hin] at h
      rcases List.mem_cons.mp h with h | h
      · subst h
        by_cases htag : p.is_tag <;> simp [htag, SqlStmt.isAdditiveAlter]
      · exact ih stmt h

/-- An `ALTER` is issued only for a parameter id missing from the
described schema. -/
theorem alterStmtsFor_missing (ps : List Parameter) (s : DescribedSchema) :
    ∀ stmt ∈ alterStmtsFor s ps, ∀ f t,
      (stmt = .addColumn f t ∨ stmt = .addTag f t) →
      f ∉ s ∧ ∃ p ∈ ps, p.id = f := by
  induction ps with
  | nil => intro stmt h; simp [alterStmtsFor] at h
  | cons p rest ih =>
    intro stmt h f t hform
    unfold alterStmtsFor at h
    by_cases hin : p.id ∈ s
    · rw [if_pos hin] at h
      obtain ⟨hf, q, hq, hqf⟩ := ih stmt h f t hform
      exact ⟨hf, q, List.mem_cons_of_mem _ hq, hqf⟩
    · rw [if_neg hin] at h
      rcases List.mem_cons.mp h with h | h
      · subst h
        by_cases htag : p.is_tag
        · simp only [htag, if_true] at hform
          rcases hform with hform | hform <;> cases hform
          exact ⟨hin, p, List.mem_cons_self _ _, rfl⟩
        · simp only [htag, if_false, Bool.false_eq_true] at hform
          rcases hform with hform | hform <;> cases hform
          exact ⟨hin, p, List.mem_cons_self _ _, rfl⟩
      · obtain ⟨hf, q, hq, hqf⟩ := ih stmt h f t hform
        exact ⟨hf, q, List.mem_cons_of_mem _ hq, hqf⟩

/-- When every parameter id is already described, no `ALTER` is issued. -/
theorem alterStmtsFor_nil_of_present {ps : List Parameter}
    {s : DescribedSchema} (h : ∀ p ∈ ps, p.id ∈ s) :
    alterStmtsFor s ps = [] := by
  induction ps with
  | nil => rfl
  | cons p rest ih =>
    unfold alterStmtsFor
    rw [if_pos (h p (List.mem_cons_self _ _))]
    exact ih fun q hq => h q (List.mem_cons_of_mem _ hq)

/-- Executing additive statements appends exactly their fields to the
described schema. -/
theorem applySqlStmts_additive (stmts : List SqlStmt)
    (hadd : ∀ stmt ∈ stmts, stmt.isAdditiveAlter = true) :
    ∀ s : DescribedSchema, applySqlStmts s stmts = s ++ addedFields stmts := by
  induction stmts with
  | nil => intro s; simp [applySqlStmts, addedFields]
  | cons stmt rest ih =>
    intro s
    have hrest : ∀ x ∈ rest, x.isAdditiveAlter = true :=
      fun x hx => hadd x (List.mem_cons_of_mem _ hx)
    cases stmt with
    | addColumn f t =>
      simp only [applySqlStmts, List.foldl_cons, applySqlStmt, addedFields]
      rw [show List.foldl applySqlStmt (s ++ [f]) rest =
          applySqlStmts (s ++ [f]) rest from rfl, ih hrest]
      simp
    | addTag f t =>
      simp only [applySqlStmts, List.foldl_cons, applySqlStmt, addedFields]
      rw [show List.foldl applySqlStmt (s ++ [f]) rest =
          applySqlStmts (s ++ [f]) rest from rfl, ih hrest]
      simp
    | dropColumn f => exact absurd (hadd _ (List.mem_cons_self _ _)) (by simp [SqlStmt.isAdditiveAlter])
    | modifyColumn f t => exact absurd (hadd _ (List.mem_cons_self _ _)) (by simp [SqlStmt.isAdditiveAlter])
    | createStable c tc => exact absurd (hadd _ (List.mem_cons_self _ _)) (by simp [SqlStmt.isAdditiveAlter])

/-- A parameter id missing from the schema is among the added fields. -/
theorem mem_addedFields_alterStmtsFor {p : Parameter} {ps : List Parameter}
    (s : DescribedSchema) (hp : p ∈ ps) (hnot : p.id ∉ s) :
    p.id ∈ addedFields (alterStmtsFor s ps) := by
  induction ps with
  | nil => simp at hp
  | cons q rest ih =>
    unfold alterStmtsFor
    rcases List.mem_cons.mp hp with hq | hq
    · subst hq
      rw [if_neg hnot]
      by_cases htag : p.is_tag <;> simp [htag, addedFields]
    · by_cases hin : q.id ∈ s
      · rw [if_pos hin]; exact ih hq
      · rw [if_neg hin]
        by_cases htag : q.is_tag <;>
          simp [htag, addedFields, ih hq]

end TDengineService

/-- C3: super-table schema synchronization on an existing table is
additive-only and idempotent — every issued statement is an `ALTER ..
ADD COLUMN`/`ADD TAG`; an `ALTER` is issued exactly for a parameter id
missing from the described schema (and none when nothing is missing);
and a second run against the schema produced by executing the first
run's statements issues zero statements. -/
theorem super_table_sync_additive_idempotent (s : TDengineService.DescribedSchema)
    (ps : List Parameter) :
    (∀ stmt ∈ TDengineService.create_super_table (some s) ps,
        stmt.isAdditiveAlter = true) ∧
    (∀ stmt ∈ TDengineService.create_super_table (some s) ps, ∀ f t,
        (stmt = .addColumn f t ∨ stmt = .addTag f t) →
        f ∉ s ∧ ∃ p ∈ ps, p.id = f) ∧
    ((∀ p ∈ ps, p.id ∈ s) →
        TDengineService.create_super_table (some s) ps = []) ∧
    TDengineService.create_super_table
        (some (TDengineService.applySqlStmts s
          (TDengineService.create_super_table (some s) ps))) ps = [] := by
  refine ⟨TDengineService.alterStmtsFor_additive ps s,
    TDengineService.alterStmtsFor_missing ps s,
    fun h => TDengineService.alterStmtsFor_nil_of_present h, ?_⟩
  show TDengineService.alterStmtsFor _ ps = []
  apply TDengineService.alterStmtsFor_nil_of_present
  intro p hp
  rw [show TDengineService.create_super_table (some s) ps =
      TDengineService.alterStmtsFor s ps from rfl,
    TDengineService.applySqlStmts_additive _
      (TDengineService.alterStmtsFor_additive ps s)]
  by_cases hin : p.id ∈ s
  · exact List.mem_append_left _ hin
  · exact List.mem_append_right _
      (TDengineService.mem_addedFields_alterStmtsFor s hp hin)

/-- Witness for C3: a schema holding `ts`/`device_name`/`device_model`
and one existing column, synchronized against a parameter set with one
existing and one new parameter. -/
theorem super_table_sync_witness :
    (∀ stmt ∈ TDengineService.create_super_table
        (some ["ts", "device_name", "device_model", "temp"])
        [{ id := "temp", type := .NUMBER }, { id := "rpm", type := .NUMBER }],
      stmt.isAdditiveAlter = true) ∧
    (∀ stmt ∈ TDengineService.create_super_table
        (some ["ts", "device_name", "device_model", "temp"])
        [{ id := "temp", type := .NUMBER }, { id := "rpm", type := .NUMBER }],
      ∀ f t, (stmt = .addColumn f t ∨ stmt = .addTag f t) →
        f ∉ ["ts", "device_name", "device_model", "temp"] ∧
        ∃ p ∈ [({ id := "temp", type := .NUMBER } : Parameter),
               { id := "rpm", type := .NUMBER }], p.id = f) ∧
    ((∀ p ∈ [({ id := "temp", type := .NUMBER } : Parameter),
             { id := "rpm", type := .NUMBER }],
        p.id ∈ ["ts", "device_name", "device_model", "temp"]) →
      TDengineService.create_super_table
        (some ["ts", "device_name", "device_model", "temp"])
        [{ id := "temp", type := .NUMBER }, { id := "rpm", type := .NUMBER }] = []) ∧
    TDengineService.create_super_table
        (some (TDengineService.applySqlStmts
          ["ts", "device_name", "device_model", "temp"]
          (TDengineService.create_super_table
            (some ["ts", "device_name", "device_model", "temp"])
            [{ id := "temp", type := .NUMBER },
             { id := "rpm", type := .NUMBER }])))
        [{ id := "temp", type := .NUMBER }, { id := "rpm", type := .NUMBER }] = [] :=
  super_table_sync_additive_idempotent
    ["ts", "device_name", "device_model", "temp"]
    [{ id := "temp", type := .NUMBER }, { id := "rpm", type := .NUMBER }]

/-- Dict assignment then lookup of the same key yields the assigned
value. -/
theorem Ctx.find_set_self (c : Ctx) (k : String) (v : Val) :
    Ctx.find (Ctx.set c k v) k = some v := by
  induction c with
  | nil => simp [Ctx.set, Ctx.find]
  | cons e rest ih =>
    obtain ⟨k2, w⟩ := e
    by_cases hk : k2 = k
    · simp [Ctx.set, Ctx.find, hk]
    · simp [Ctx.set, Ctx.find, hk, ih]

/-- Dict assignment leaves lookups of other keys unchanged. -/
theorem Ctx.find_set_ne (c : Ctx) (k k2 : String) (v : Val) (h : k ≠ k2) :
    Ctx.find (Ctx.set c k v) k2 = Ctx.find c k2 := by
  induction c with
  | nil => simp [Ctx.set, Ctx.find, h]
  | cons e rest ih =>
    obtain ⟨k3, w⟩ := e
    by_cases hk : k3 = k
    · subst hk
      simp [Ctx.set, Ctx.find, h]
    · simp [Ctx.set, Ctx.find, hk, ih]

/-- Writer-loop collaborators in which data generation fails for device
`d1` only; every sink succeeds and TDengine is disabled. -/
def failingGenOps : DataWriter.TickOps where
  generate := fun d => if d = "d1" then .error "boom" else .ok ()
  tdengine_connected := false
  td_insert := fun _ => .ok ()
  mqtt_publish := fun _ => .ok ()
  modbus_update := fun _ => .ok ()
  opcua_update := fun _ => .ok ()

/-- Counterexample to C1 as stated: with tick list `[d1, d2]` and a
generation failure for `d1`, the failure is caught and logged but `d2` —
later in the same tick's list — is NOT processed, although `d2` alone
processes fine.  Per-device isolation exists only around the TDengine
write; the `try/except` in `process_devices` wraps the whole device
loop. -/
theorem writer_tick_skips_rest_counterexample :
    DataWriter.process_devices failingGenOps ["d1", "d2"] =
      ([], ["DataWriter process exception: boom"]) ∧
    DataWriter.process_devices failingGenOps ["d2"] = (["d2"], []) :=
  ⟨rfl, rfl⟩

/-- C1 corrected: a failure while generating data for (or dispatching the
sample of) one device is caught at the tick level and logged, and the
polling loop keeps running (`running` stays true); but only the devices
BEFORE the failing one in the tick's list are processed — the devices
after it are skipped for that tick. -/
theorem writer_tick_failure_caught_loop_continues
    (ops : DataWriter.TickOps) (pre post : List String) (d e : String)
    (hpre : ∀ x ∈ pre, DataWriter.processDevice ops x = .ok [])
    (hd : DataWriter.processDevice ops d = .error e) :
    DataWriter.process_devices ops (pre ++ d :: post) =
      (pre, ["DataWriter process exception: " ++ e]) ∧
    (DataWriter.write_loop_tick ops (pre ++ d :: post)
      { running := true, log := [] }).running = true := by
  refine ⟨?_, by simp [DataWriter.write_loop_tick]⟩
  induction pre with
  | nil => simp [DataWriter.process_devices, hd]
  | cons x rest ih =>
    have hx : DataWriter.processDevice ops x = .ok [] :=
      hpre x (List.mem_cons_self _ _)
    have hrest := ih fun y hy => hpre y (List.mem_cons_of_mem _ hy)
    simp [DataWriter.process_devices, hx, hrest]

/-- Witness for C1 corrected: device `d0` before the failing `d1` is
processed, `d2` after it is skipped, the exception is logged, and the
loop stays running. -/
theorem writer_tick_failure_caught_witness :
    DataWriter.process_devices failingGenOps (["d0"] ++ "d1" :: ["d2"]) =
      (["d0"], ["DataWriter process exception: " ++ "boom"]) ∧
    (DataWriter.write_loop_tick failingGenOps (["d0"] ++ "d1" :: ["d2"])
      { running := true, log := [] }).running = true :=
  writer_tick_failure_caught_loop_continues failingGenOps ["d0"] ["d2"]
    "d1" "boom"
    (by intro x hx; simp at hx; subst hx; rfl) rfl

/-- C2 (modelled from the spec, §4.6 steps 4-5): for a device with a
physics configuration, one generator tick advances the device's physics
state by exactly one nominal time step (`dt = 1` of
`PhysicsEngine.update_state`), and the working value map handed to rule
evaluation contains the advanced `position` and `velocity` — an
expression naming `velocity` evaluates to the advanced value, so rules
can reference them. -/
theorem physics_advanced_and_merged_before_rules
    (genValue : Parameter → Val) (draws : String → ErrorDraws)
    (parameters : List Parameter) (cfg : PhysicsConfig)
    (rules : List LogicRule) (st : SampleGenerator.GenDeviceState) :
    (SampleGenerator.generate_device_data genValue draws parameters
        (some cfg) rules st).2.physics_state =
      PhysicsEngine.update_state st.physics_state cfg 1 ∧
    Ctx.find (SampleGenerator.workingBeforeRules genValue parameters
        (some cfg) st) "position" =
      some (.num (PhysicsEngine.update_state st.physics_state cfg 1).position) ∧
    evalExpr (SampleGenerator.workingBeforeRules genValue parameters
        (some cfg) st) (.var "velocity") =
      some (.num (PhysicsEngine.update_state st.physics_state cfg 1).velocity) := by
  refine ⟨rfl, ?_, ?_⟩
  · show Ctx.find (Ctx.set (Ctx.set _ "position" _) "velocity" _) "position" = _
    rw [Ctx.find_set_ne _ _ _ _ (by decide), Ctx.find_set_self]
  · show Ctx.find (Ctx.set _ "velocity" _) "velocity" = _
    rw [Ctx.find_set_self]

end DeviceSim
